import Mathlib

/-!
Shallow embedding of the transactional persistence core of the
holochain-persistence repository.

The embedding covers:
  - the EAV record type and its order
    (src/persistence/src/eav/eavi.rs);
  - the LMDB-backed cursor EnvCursor with its staging and primary stores,
    its read cascade, its write routing and its grow-and-retry commit loop
    (src/crates/holochain_persistence_lmdb/src/txn/lmdb.rs);
  - the LMDB CAS storage handle with its UUID identity
    (src/crates/holochain_persistence_lmdb/src/cas/lmdb.rs);
  - the non-transactional cursor of the API crate
    (src/crates/holochain_persistence_api/src/txn/txn.rs).

Machine integers of the source (i64 indices, usize map sizes) are modelled
as Int and Nat; overflow is irrelevant to the verified properties.
Addresses are opaque byte strings (List Nat); content payloads are the
JSON strings the stores persist.  Store state that the source keeps behind
rkv environment handles is passed explicitly; fallible I/O outside the
capacity-signalling path is not represented, and capacity signalling is
driven by an explicit byte-size accounting of the mapped region.
-/

/-- Address: a stable, comparable, opaque identifier for content, treated as
a byte string. -/
abbrev Address : Type := List Nat

/-- Content: the serialized (JSON string) payload a store persists. -/
abbrev Content : Type := String

/-- A piece of addressable content: pairs the content with the address the
hash function assigns to it.  Address computation itself is an external
collaborator of the core, so the pairing is kept explicit. -/
structure AddressableContent where
  address : Address
  content : Content
deriving DecidableEq, Repr

/-- Lookup in an association-list model of an lmdb bucket; the most recent
write for an address wins. -/
def casGet (m : List (Address × Content)) (a : Address) : Option Content :=
  match m with
  | [] => Option.none
  | (a', c) :: rest => if a' = a then some c else casGet rest a

/-- Write to an association-list model of an lmdb bucket. -/
def casPut (a : Address) (c : Content) (m : List (Address × Content)) :
    List (Address × Content) :=
  (a, c) :: m

/-- EntityAttributeValueIndex from src/persistence/src/eav/eavi.rs: the EAV
triple together with its i64 index. -/
structure EntityAttributeValueIndex (A : Type) where
  entity : Address
  attr : A
  value : Address
  index : Int
deriving DecidableEq, Repr

/-- Rust i64::cmp, as used by the Ord implementation for
EntityAttributeValueIndex. -/
def intCmp (x y : Int) : Ordering :=
  if x < y then Ordering.lt else if y < x then Ordering.gt else Ordering.eq

/-- Ord for EntityAttributeValueIndex (src/persistence/src/eav/eavi.rs,
lines 116-120): the comparison is self.index.cmp(other.index()) and nothing
else. -/
def eaviCmp {A : Type} (r1 r2 : EntityAttributeValueIndex A) : Ordering :=
  intCmp r1.index r2.index

/-- Insertion into a BTreeSet ordered by eaviCmp: when an element comparing
equal is already present, the set keeps the old element and discards the new
one (Rust BTreeSet::insert semantics). -/
def setInsert {A : Type} (r : EntityAttributeValueIndex A) :
    List (EntityAttributeValueIndex A) → List (EntityAttributeValueIndex A)
  | [] => [r]
  | b :: bs =>
    match eaviCmp r b with
    | Ordering.lt => r :: b :: bs
    | Ordering.eq => b :: bs
    | Ordering.gt => b :: setInsert r bs

/-- The ordered set a fetch builds from its matching records, as a sorted
duplicate-free (up to eaviCmp) list. -/
def toOrderedSet {A : Type} (l : List (EntityAttributeValueIndex A)) :
    List (EntityAttributeValueIndex A) :=
  l.foldl (fun s r => setInsert r s) []

/-- EntityAttributeValueIndex::new (src/persistence/src/eav/eavi.rs, lines
132-144).  The source reads the wall clock: index is
Utc::now().timestamp_nanos().  The clock sample is passed explicitly, since
reading the clock is the only effect of the constructor. -/
def EntityAttributeValueIndex.new {A : Type} (now_timestamp_nanos : Int)
    (entity : Address) (attr : A) (value : Address) :
    EntityAttributeValueIndex A :=
  { entity := entity, attr := attr, value := value,
    index := now_timestamp_nanos }

/-- EntityAttributeValueIndex::new_with_index (src/persistence/src/eav/eavi.rs,
lines 146-158): the caller supplies the index. -/
def EntityAttributeValueIndex.new_with_index {A : Type} (entity : Address)
    (attr : A) (value : Address) (timestamp : Int) :
    EntityAttributeValueIndex A :=
  { entity := entity, attr := attr, value := value,
    index := timestamp }

/-- IndexFilter of an EAV query.  Modelled from the spec: the query layer
(eav query module, not under src/) has variants LatestByAttribute,
Range(low, high) with optional inclusive bounds, and no filtering. -/
inductive IndexFilter where
  | latestByAttribute : IndexFilter
  | range : Option Int → Option Int → IndexFilter
  | noFilter : IndexFilter
deriving DecidableEq, Repr

/-- EaviQuery: optional equality filters on each triple component plus an
index filter.  Modelled from the spec: the query type itself lives in the
eav query module, not under src/. -/
structure EaviQuery (A : Type) where
  entity : Option Address
  attr : Option A
  value : Option Address
  indexFilter : IndexFilter
deriving DecidableEq, Repr

/-- Match phase of query evaluation: a record matches when every present
filter equals the corresponding component. -/
def matchesTriple {A : Type} [DecidableEq A] (q : EaviQuery A)
    (r : EntityAttributeValueIndex A) : Bool :=
  (match q.entity with
   | Option.none => true
   | some e => decide (e = r.entity)) &&
  (match q.attr with
   | Option.none => true
   | some a => decide (a = r.attr)) &&
  (match q.value with
   | Option.none => true
   | some v => decide (v = r.value))

/-- Index-filter phase of query evaluation.  Modelled from the spec:
LatestByAttribute keeps, per attribute, only records of maximal index;
Range keeps records whose index lies within the optional inclusive bounds;
no filter is the identity. -/
def indexFilterPhase {A : Type} [DecidableEq A] (f : IndexFilter)
    (matched : List (EntityAttributeValueIndex A)) :
    List (EntityAttributeValueIndex A) :=
  match f with
  | IndexFilter.latestByAttribute =>
    matched.filter fun r =>
      matched.all fun r2 =>
        decide (¬ r2.attr = r.attr) || decide (r2.index ≤ r.index)
  | IndexFilter.range lo hi =>
    matched.filter fun r =>
      (match lo with
       | Option.none => true
       | some l => decide (l ≤ r.index)) &&
      (match hi with
       | Option.none => true
       | some h => decide (r.index ≤ h))
  | IndexFilter.noFilter => matched

/-- Full query evaluation over the records of an EAV store.  Modelled from
the spec: match phase, then index-filter phase, then the result is returned
as an ordered set using the record order. -/
def fetchEaviRecords {A : Type} [DecidableEq A]
    (records : List (EntityAttributeValueIndex A)) (q : EaviQuery A) :
    List (EntityAttributeValueIndex A) :=
  toOrderedSet (indexFilterPhase q.indexFilter (records.filter (matchesTriple q)))

/-- LmdbStorage (src/crates/holochain_persistence_lmdb/src/cas/lmdb.rs): a
CAS bucket handle carrying the UUID assigned at construction and the bucket
contents. -/
structure LmdbStorage where
  id : Nat
  store : List (Address × Content)
deriving DecidableEq, Repr

/-- LmdbStorage::get_id (src/crates/holochain_persistence_lmdb/src/cas/lmdb.rs,
lines 99-101): returns the stored UUID. -/
def LmdbStorage.get_id (s : LmdbStorage) : Nat :=
  s.id

/-- LmdbStorage::add: writes the content keyed by its address. -/
def LmdbStorage.add (s : LmdbStorage) (c : AddressableContent) : LmdbStorage :=
  { s with store := casPut c.address c.content s.store }

/-- LmdbStorage::fetch: exact-key lookup. -/
def LmdbStorage.fetch (s : LmdbStorage) (a : Address) : Option Content :=
  casGet s.store a

/-- EavLmdbStorage: the EAV bucket handle with its UUID and records. -/
structure EavLmdbStorage (A : Type) where
  id : Nat
  records : List (EntityAttributeValueIndex A)
deriving DecidableEq, Repr

/-- EavLmdbStorage::fetch_eavi: query evaluation over the stored records. -/
def EavLmdbStorage.fetch_eavi {A : Type} [DecidableEq A]
    (db : EavLmdbStorage A) (q : EaviQuery A) :
    List (EntityAttributeValueIndex A) :=
  fetchEaviRecords db.records q

/-- EavLmdbStorage::resizable_add_lmdb_eavi.  Modelled from the spec for the
return value (the eav lmdb module is not under src/): writes the record and
returns the prior record whose exact triple already existed, if any. -/
def EavLmdbStorage.resizable_add_lmdb_eavi {A : Type} [DecidableEq A]
    (db : EavLmdbStorage A) (r : EntityAttributeValueIndex A) :
    Option (EntityAttributeValueIndex A) × EavLmdbStorage A :=
  (db.records.find? (fun r2 =>
      decide (r2.entity = r.entity) && decide (r2.attr = r.attr) &&
      decide (r2.value = r.value)),
   { db with records := db.records ++ [r] })

/-- EnvCursor (src/crates/holochain_persistence_lmdb/src/txn/lmdb.rs, lines
24-30): primary CAS and EAV handles plus the private staging pair.  The
primary CAS and EAV share one lmdb environment; mapSize is that shared
environment's mapped size in bytes. -/
structure EnvCursor (A : Type) where
  mapSize : Nat
  cas_db : LmdbStorage
  eav_db : EavLmdbStorage A
  staging_cas_db : LmdbStorage
  staging_eav_db : EavLmdbStorage A
deriving DecidableEq, Repr

/-- EnvCursor::add (txn/lmdb.rs, lines 152-154): adds content only to the
staging CAS database. -/
def EnvCursor.add {A : Type} (cur : EnvCursor A) (c : AddressableContent) :
    EnvCursor A :=
  { cur with staging_cas_db := cur.staging_cas_db.add c }

/-- EnvCursor::fetch (txn/lmdb.rs, lines 163-178): first try the staging CAS
database, then the primary; cache a primary hit into the staging database.
The cached content is stored under the queried address, which is its own
address by the CAS write discipline. -/
def EnvCursor.fetch {A : Type} (cur : EnvCursor A) (a : Address) :
    Option Content × EnvCursor A :=
  match casGet cur.staging_cas_db.store a with
  | some c => (some c, cur)
  | Option.none =>
    match casGet cur.cas_db.store a with
    | some c =>
      (some c,
       { cur with staging_cas_db :=
          { cur.staging_cas_db with
            store := casPut a c cur.staging_cas_db.store } })
    | Option.none => (Option.none, cur)

/-- EnvCursor::contains (txn/lmdb.rs, lines 156-159): delegates to fetch and
reports whether it found content. -/
def EnvCursor.contains {A : Type} (cur : EnvCursor A) (a : Address) :
    Bool × EnvCursor A :=
  let r := cur.fetch a
  (r.1.isSome, r.2)

/-- EnvCursor::get_id (txn/lmdb.rs, lines 180-182): returns the primary CAS
database's id. -/
def EnvCursor.get_id {A : Type} (cur : EnvCursor A) : Nat :=
  cur.cas_db.get_id

/-- EnvCursor::add_eavi (txn/lmdb.rs, lines 188-195): adds the record only to
the staging EAV database via the resizable add. -/
def EnvCursor.add_eavi {A : Type} [DecidableEq A] (cur : EnvCursor A)
    (r : EntityAttributeValueIndex A) :
    Option (EntityAttributeValueIndex A) × EnvCursor A :=
  let p := cur.staging_eav_db.resizable_add_lmdb_eavi r
  (p.1, { cur with staging_eav_db := p.2 })

/-- EnvCursor::fetch_eavi (txn/lmdb.rs, lines 199-215): query the staging EAV
database and return a non-empty result; otherwise query the primary, then add
each resulting record to the staging CAS database (the source line 212 is
self.staging_cas_db.add(eavi), serializing the record as addressable
content via toContent) and return the primary result. -/
def EnvCursor.fetch_eavi {A : Type} [DecidableEq A]
    (toContent : EntityAttributeValueIndex A → AddressableContent)
    (cur : EnvCursor A) (q : EaviQuery A) :
    List (EntityAttributeValueIndex A) × EnvCursor A :=
  let eavis := cur.staging_eav_db.fetch_eavi q
  if eavis.isEmpty then
    let eavis2 := cur.eav_db.fetch_eavi q
    (eavis2,
     { cur with staging_cas_db :=
        eavis2.foldl (fun db r => db.add (toContent r)) cur.staging_cas_db })
  else (eavis, cur)

/-- Decidable equality for Except results, used to evaluate concrete commit
outcomes. -/
instance {ε α : Type} [DecidableEq ε] [DecidableEq α] : DecidableEq (Except ε α) :=
  fun x y =>
    match x, y with
    | Except.ok a, Except.ok b =>
      if h : a = b then isTrue (by rw [h])
      else isFalse (fun hh => by cases hh; exact h rfl)
    | Except.error a, Except.error b =>
      if h : a = b then isTrue (by rw [h])
      else isFalse (fun hh => by cases hh; exact h rfl)
    | Except.ok _, Except.error _ => isFalse (fun hh => by cases hh)
    | Except.error _, Except.ok _ => isFalse (fun hh => by cases hh)

/-- StoreError of the rkv backend, restricted to what the commit path
inspects: MapFull is the capacity signal that is_store_full_result
recognizes.  Modelled from the spec for the non-capacity side (the error
module is not under src/): any other backend failure is opaque. -/
inductive StoreError where
  | mapFull : StoreError
  | other : Nat → StoreError
deriving DecidableEq, Repr

/-- PersistenceError kinds relevant to commit.  Modelled from the spec
(error module not under src/): CapacityExhausted is the distinguished
mapped-region-full kind; every other kind is opaque here. -/
inductive PersistenceError where
  | capacityExhausted : PersistenceError
  | error : Nat → PersistenceError
deriving DecidableEq, Repr

/-- to_api_error: converts a backend store error into the api error type,
keeping the capacity signal distinguishable.  Modelled from the spec (error
module not under src/). -/
def to_api_error (e : StoreError) : PersistenceError :=
  match e with
  | StoreError.mapFull => PersistenceError.capacityExhausted
  | StoreError.other n => PersistenceError.error n

/-- is_store_full_result: recognizes the MapFull capacity signal in a write
result.  Modelled from the spec (error module not under src/). -/
def is_store_full_result {α : Type} (r : Except StoreError α) : Bool :=
  match r with
  | Except.error StoreError.mapFull => true
  | _ => false

/-- map_growth_factor.  Modelled from the spec: on a CapacityExhausted
signal the mapped capacity is doubled (crate::common is not under src/). -/
def map_growth_factor : Nat := 2

/-- Size in bytes charged to a CAS entry in the mapped region. -/
def casEntrySize (a : Address) (c : Content) : Nat :=
  a.length + c.length + 1

/-- Size in bytes charged to an EAV record in the mapped region. -/
def eaviSize {A : Type} (r : EntityAttributeValueIndex A) : Nat :=
  r.entity.length + r.value.length + 1

/-- Bytes of the primary environment already occupied by committed data. -/
def usedSize {A : Type} (cur : EnvCursor A) : Nat :=
  (cur.cas_db.store.map (fun p => casEntrySize p.1 p.2)).sum +
    (cur.eav_db.records.map eaviSize).sum

/-- One write of a staged entry of the given size inside the primary writer:
fails with MapFull when the entry does not fit in the mapped region. -/
def lmdb_write_size (mapSize used sz : Nat) : Except StoreError Nat :=
  if used + sz ≤ mapSize then Except.ok (used + sz) else Except.error StoreError.mapFull

/-- Sequential writes of staged entries inside one writer, threading the
occupied byte count; the first entry that does not fit raises MapFull. -/
def writePhase (mapSize : Nat) : Nat → List Nat → Except StoreError Nat
  | used, [] => Except.ok used
  | used, sz :: rest =>
    match lmdb_write_size mapSize used sz with
    | Except.ok used' => writePhase mapSize used' rest
    | Except.error e => Except.error e

/-- Growing the primary mapped region: env.set_map_size(map_size *
map_growth_factor()), as performed on every store-full branch of
commit_internal. -/
def EnvCursor.grow {A : Type} (cur : EnvCursor A) : EnvCursor A :=
  { cur with mapSize := cur.mapSize * map_growth_factor }

/-- The effect of a successful final writer.commit(): staged CAS entries and
staged EAV records land in the primary stores, and staging is dropped with
the consumed cursor. -/
def applyCommitData {A : Type} (cur : EnvCursor A) : EnvCursor A :=
  { cur with
    cas_db :=
      { cur.cas_db with
        store := cur.staging_cas_db.store.foldl
          (fun m p => casPut p.1 p.2 m) cur.cas_db.store },
    eav_db :=
      { cur.eav_db with
        records := cur.eav_db.records ++ cur.staging_eav_db.records },
    staging_cas_db := { cur.staging_cas_db with store := [] },
    staging_eav_db := { cur.staging_eav_db with records := [] } }

/-- Transaction overhead in bytes that the final writer.commit() must fit
into the mapped region beyond the staged entry bytes themselves: committing
materializes meta and B-tree pages, so the commit can signal MapFull even
though every individual put fitted.  One byte keeps that site reachable in
the size model. -/
def txnCommitOverhead : Nat := 1

/-- The final writer.commit() of a commit attempt (txn/lmdb.rs, lines
91-110): flushes the transaction, and signals MapFull when the written
bytes plus the transaction overhead exceed the mapped region. -/
def writer_commit (mapSize used : Nat) : Except StoreError Unit :=
  if used + txnCommitOverhead ≤ mapSize then Except.ok ()
  else Except.error StoreError.mapFull

/-- EnvCursor::commit_internal (txn/lmdb.rs, lines 36-111): a single commit
attempt.  Staged CAS entries are written first, then staged EAV records,
inside one primary writer, and finally the writer itself is committed.  A
MapFull signal at any of the three sites releases the writer, grows the
primary mapping and reports false (retry); any other store error surfaces
through to_api_error; a fully committed attempt reports true. -/
def commit_internal {A : Type} (cur : EnvCursor A) :
    Except PersistenceError (Bool × EnvCursor A) :=
  let casWrite := writePhase cur.mapSize (usedSize cur)
    (cur.staging_cas_db.store.map (fun p => casEntrySize p.1 p.2))
  match casWrite with
  | Except.error StoreError.mapFull => Except.ok (false, cur.grow)
  | Except.error e => Except.error (to_api_error e)
  | Except.ok used1 =>
    match writePhase cur.mapSize used1 (cur.staging_eav_db.records.map eaviSize) with
    | Except.error StoreError.mapFull => Except.ok (false, cur.grow)
    | Except.error e => Except.error (to_api_error e)
    | Except.ok used2 =>
      match writer_commit cur.mapSize used2 with
      | Except.ok () => Except.ok (true, applyCommitData cur)
      | Except.error StoreError.mapFull => Except.ok (false, cur.grow)
      | Except.error e => Except.error (to_api_error e)

/-- EnvCursor::commit of the Writer implementation (txn/lmdb.rs, lines
117-125): loop commit_internal until it reports true, propagating errors.
The loop is unbounded in the source; fuel makes the iteration count
explicit, with none meaning the loop has not finished within the fuel. -/
def EnvCursor.commit {A : Type} :
    Nat → EnvCursor A → Option (Except PersistenceError (EnvCursor A))
  | 0, _ => Option.none
  | fuel + 1, cur =>
    match commit_internal cur with
    | Except.error e => some (Except.error e)
    | Except.ok (true, cur') => some (Except.ok cur')
    | Except.ok (false, cur') => EnvCursor.commit fuel cur'

/-- LmdbCursorProvider (txn/lmdb.rs, lines 220-236): holds the primary CAS
and EAV handles and the staging configuration. -/
structure LmdbCursorProvider (A : Type) where
  mapSize : Nat
  cas_db : LmdbStorage
  eav_db : EavLmdbStorage A
deriving DecidableEq, Repr

/-- LmdbCursorProvider::create_cursor (txn/lmdb.rs, lines 246-273): opens a
fresh staging pair named by a freshly drawn UUID (passed explicitly as
stagingId) and returns a cursor over the shared primaries and the empty
staging stores. -/
def LmdbCursorProvider.create_cursor {A : Type} (p : LmdbCursorProvider A)
    (stagingId : Nat) : EnvCursor A :=
  { mapSize := p.mapSize,
    cas_db := p.cas_db,
    eav_db := p.eav_db,
    staging_cas_db := { id := stagingId, store := [] },
    staging_eav_db := { id := stagingId, records := [] } }

/-- DefaultPersistenceManager (txn/txn.rs, lines 182-209), instantiated at
the lmdb types: the primary handles plus the cursor provider. -/
structure DefaultPersistenceManager (A : Type) where
  cas : LmdbStorage
  eav : EavLmdbStorage A
  cursor_provider : LmdbCursorProvider A
deriving DecidableEq, Repr

/-- new_manager (txn/lmdb.rs, lines 279-310): builds the primary stores and
a cursor provider sharing the same handles. -/
def new_manager {A : Type} (cas_db : LmdbStorage) (eav_db : EavLmdbStorage A)
    (mapSize : Nat) : DefaultPersistenceManager A :=
  { cas := cas_db,
    eav := eav_db,
    cursor_provider :=
      { mapSize := mapSize, cas_db := cas_db, eav_db := eav_db } }

/-- NonTransactionalCursor (txn/txn.rs, lines 50-59), instantiated at the
list-backed store model: wraps the underlying CAS and EAV stores with no
staging. -/
structure NonTransactionalCursor (A : Type) where
  cas : List (Address × Content)
  eav : List (EntityAttributeValueIndex A)
deriving DecidableEq, Repr

/-- NonTransactionalCursor::add (txn/txn.rs, lines 67-69): delegates to the
underlying CAS. -/
def NonTransactionalCursor.add {A : Type} (nt : NonTransactionalCursor A)
    (c : AddressableContent) : NonTransactionalCursor A :=
  { nt with cas := casPut c.address c.content nt.cas }

/-- NonTransactionalCursor::fetch (txn/txn.rs, lines 71-73): delegates to
the underlying CAS; reads do not mutate anything. -/
def NonTransactionalCursor.fetch {A : Type} (nt : NonTransactionalCursor A)
    (a : Address) : Option Content :=
  casGet nt.cas a

/-- NonTransactionalCursor::contains (txn/txn.rs, lines 75-77): delegates to
the underlying CAS. -/
def NonTransactionalCursor.contains {A : Type} (nt : NonTransactionalCursor A)
    (a : Address) : Bool :=
  (nt.fetch a).isSome

/-- NonTransactionalCursor::add_eavi (txn/txn.rs, lines 90-95): delegates to
the underlying EAV store. -/
def NonTransactionalCursor.add_eavi {A : Type} [DecidableEq A]
    (nt : NonTransactionalCursor A) (r : EntityAttributeValueIndex A) :
    Option (EntityAttributeValueIndex A) × NonTransactionalCursor A :=
  (nt.eav.find? (fun r2 =>
      decide (r2.entity = r.entity) && decide (r2.attr = r.attr) &&
      decide (r2.value = r.value)),
   { nt with eav := nt.eav ++ [r] })

/-- NonTransactionalCursor::fetch_eavi (txn/txn.rs, lines 97-102): delegates
to the underlying EAV store, with no staging and no caching. -/
def NonTransactionalCursor.fetch_eavi {A : Type} [DecidableEq A]
    (nt : NonTransactionalCursor A) (q : EaviQuery A) :
    List (EntityAttributeValueIndex A) :=
  fetchEaviRecords nt.eav q

/-- Writer for NonTransactionalCursor (txn/txn.rs, lines 124-133): commit
delegates to NoopWriter::commit, returning Ok(()) and doing no work; the
underlying stores are untouched. -/
def NonTransactionalCursor.commit {A : Type} (nt : NonTransactionalCursor A) :
    Except PersistenceError Unit × NonTransactionalCursor A :=
  (Except.ok (), nt)

/-- CursorProvider for NonTransactionalCursor (txn/txn.rs, lines 135-146):
create_cursor returns a clone sharing the same stores. -/
def NonTransactionalCursor.create_cursor {A : Type}
    (nt : NonTransactionalCursor A) : NonTransactionalCursor A :=
  nt

/-- Strict index order on EAV records. -/
def indexLt {A : Type} (r1 r2 : EntityAttributeValueIndex A) : Prop :=
  r1.index < r2.index

theorem eaviCmp_lt {A : Type} {r b : EntityAttributeValueIndex A}
    (h : eaviCmp r b = Ordering.lt) : r.index < b.index := by
  unfold eaviCmp intCmp at h
  split at h
  · assumption
  · split at h <;> simp_all

theorem eaviCmp_gt {A : Type} {r b : EntityAttributeValueIndex A}
    (h : eaviCmp r b = Ordering.gt) : b.index < r.index := by
  unfold eaviCmp intCmp at h
  split at h
  · simp_all
  · split at h <;> simp_all

theorem eaviCmp_of_index_eq {A : Type} {r b : EntityAttributeValueIndex A}
    (h : r.index = b.index) : eaviCmp r b = Ordering.eq := by
  unfold eaviCmp intCmp
  rw [h]
  simp

theorem setInsert_head {A : Type} (r : EntityAttributeValueIndex A)
    (l : List (EntityAttributeValueIndex A)) :
    (setInsert r l).head? = some r ∨ (setInsert r l).head? = l.head? := by
  cases l with
  | nil => left; rfl
  | cons b bs =>
    cases hc : eaviCmp r b with
    | lt => left; simp [setInsert, hc]
    | eq => right; simp [setInsert, hc]
    | gt => right; simp [setInsert, hc]

theorem setInsert_chain {A : Type} (r : EntityAttributeValueIndex A) :
    ∀ l : List (EntityAttributeValueIndex A),
      List.Chain' indexLt l → List.Chain' indexLt (setInsert r l)
  | [], _ => by simp [setInsert]
  | b :: bs, h => by
    rw [List.chain'_cons'] at h
    obtain ⟨hb, hbs⟩ := h
    cases hc : eaviCmp r b with
    | lt =>
      simp only [setInsert, hc]
      rw [List.chain'_cons]
      exact ⟨eaviCmp_lt hc, List.chain'_cons'.mpr ⟨hb, hbs⟩⟩
    | eq =>
      simp only [setInsert, hc]
      exact List.chain'_cons'.mpr ⟨hb, hbs⟩
    | gt =>
      simp only [setInsert, hc]
      rw [List.chain'_cons']
      refine ⟨?_, setInsert_chain r bs hbs⟩
      intro y hy
      rcases setInsert_head r bs with hh | hh
      · rw [hh] at hy
        cases hy
        exact eaviCmp_gt hc
      · rw [hh] at hy
        exact hb y hy

theorem foldl_setInsert_chain {A : Type} :
    ∀ (l acc : List (EntityAttributeValueIndex A)),
      List.Chain' indexLt acc →
      List.Chain' indexLt (l.foldl (fun s r => setInsert r s) acc)
  | [], _, h => h
  | r :: rs, acc, h =>
    foldl_setInsert_chain rs (setInsert r acc) (setInsert_chain r acc h)

theorem toOrderedSet_chain {A : Type} (l : List (EntityAttributeValueIndex A)) :
    List.Chain' indexLt (toOrderedSet l) :=
  foldl_setInsert_chain l [] List.chain'_nil

/-- Concrete records for the order counterexample: distinct records with
equal index. -/
def eaviR1 : EntityAttributeValueIndex Nat :=
  { entity := [0], attr := 0, value := [0], index := 0 }

def eaviR2 : EntityAttributeValueIndex Nat :=
  { entity := [1], attr := 0, value := [0], index := 0 }

/-- Wildcard query with no filters. -/
def qAllNat : EaviQuery Nat :=
  { entity := Option.none, attr := Option.none, value := Option.none,
    indexFilter := IndexFilter.noFilter }

/-- C2: refuted as stated.  The Ord implementation for
EntityAttributeValueIndex compares only the index, so the two distinct
records eaviR1 and eaviR2 with equal index compare as equal, and the ordered
set built by fetch_eavi from both retains only one of them. -/
theorem eavi_ord_tiebreak_refuted :
    eaviR1 ≠ eaviR2 ∧ eaviCmp eaviR1 eaviR2 = Ordering.eq ∧
    toOrderedSet [eaviR1, eaviR2] = [eaviR1] ∧
    (fetchEaviRecords [eaviR1, eaviR2] qAllNat).length = 1 := by
  refine ⟨by decide, by decide, by decide, by decide⟩

/-- C2 (amended): the total order on EAV records used for the ordered sets
returned by fetch_eavi compares solely by index; two records with equal
index compare as equal, so of two distinct records with equal index only
the first inserted is retained, and every set returned by fetch_eavi is
strictly sorted by index. -/
theorem eavi_ord_index_only {A : Type} [DecidableEq A]
    (r1 r2 : EntityAttributeValueIndex A)
    (rs : List (EntityAttributeValueIndex A)) (q : EaviQuery A) :
    eaviCmp r1 r2 = intCmp r1.index r2.index ∧
    (r1.index = r2.index →
      eaviCmp r1 r2 = Ordering.eq ∧ setInsert r2 (setInsert r1 []) = [r1]) ∧
    List.Chain' indexLt (fetchEaviRecords rs q) := by
  refine ⟨rfl, ?_, toOrderedSet_chain _⟩
  intro h
  have hc := eaviCmp_of_index_eq h
  exact ⟨hc, by simp [setInsert, eaviCmp_of_index_eq h.symm]⟩

/-- Instance of the amended order theorem at the concrete records with equal
index. -/
theorem eavi_ord_index_only_inst :
    eaviR1.index = eaviR2.index ∧ eaviCmp eaviR1 eaviR2 = Ordering.eq ∧
    setInsert eaviR2 (setInsert eaviR1 []) = [eaviR1] :=
  ⟨by decide,
   ((eavi_ord_index_only eaviR1 eaviR2 [] qAllNat).2.1 (by decide)).1,
   ((eavi_ord_index_only eaviR1 eaviR2 [] qAllNat).2.1 (by decide)).2⟩

/-- Two records constructed at the same wall-clock nanosecond sample. -/
def eaviNewA : EntityAttributeValueIndex Nat :=
  EntityAttributeValueIndex.new 5 [0] 0 [0]

def eaviNewB : EntityAttributeValueIndex Nat :=
  EntityAttributeValueIndex.new 5 [1] 0 [1]

/-- C6: refuted as stated.  The constructor assigns the raw wall-clock
sample as the index and enforces no monotonicity, so two records
constructed in sequence while the clock reports the same nanosecond value
have equal, not strictly increasing, indices. -/
theorem eavi_new_index_not_strictly_increasing :
    ¬ eaviNewA.index < eaviNewB.index := by decide

/-- C6 (amended): a record constructed by EntityAttributeValueIndex::new
carries exactly the wall-clock sample as its index, so of two records
constructed in sequence the first index is strictly below the second
whenever the clock sample strictly increased between the constructions. -/
theorem eavi_new_index_increases_with_clock {A : Type} (c1 c2 : Int)
    (e1 e2 : Address) (a1 a2 : A) (v1 v2 : Address) (h : c1 < c2) :
    (EntityAttributeValueIndex.new c1 e1 a1 v1).index = c1 ∧
    (EntityAttributeValueIndex.new c2 e2 a2 v2).index = c2 ∧
    (EntityAttributeValueIndex.new c1 e1 a1 v1).index <
      (EntityAttributeValueIndex.new c2 e2 a2 v2).index :=
  ⟨rfl, rfl, h⟩

/-- Instance of the amended index theorem at clock samples 5 and 6. -/
theorem eavi_new_index_increases_with_clock_inst :
    (EntityAttributeValueIndex.new (A := Nat) 5 [0] 0 [0]).index <
      (EntityAttributeValueIndex.new (A := Nat) 6 [1] 0 [1]).index :=
  (eavi_new_index_increases_with_clock 5 6 [0] [1] 0 0 [0] [1] (by decide)).2.2

/-- The record sitting in the primary EAV store for the caching scenario. -/
def eavPrimRec : EntityAttributeValueIndex Nat :=
  { entity := [3], attr := 7, value := [4], index := 9 }

/-- Serialization of an EAV record as addressable content, as performed by
the AddressableContent implementation when the cursor writes a record into
a CAS bucket. -/
def eaviCacheToC : EntityAttributeValueIndex Nat → AddressableContent :=
  fun r => { address := r.entity ++ r.value, content := "eavi-json" }

/-- A cursor whose staging EAV store is empty and whose primary EAV store
holds exactly eavPrimRec. -/
def fetchCur : EnvCursor Nat :=
  { mapSize := 100,
    cas_db := { id := 1, store := [] },
    eav_db := { id := 1, records := [eavPrimRec] },
    staging_cas_db := { id := 2, store := [] },
    staging_eav_db := { id := 2, records := [] } }

/-- C3: evaluation of the code at the failing input.  fetch_eavi on
fetchCur returns the primary record, but writes the cache copy into the
staging CAS store (txn/lmdb.rs line 212 adds each record to
staging_cas_db), leaving the staging EAV store empty; the repeated
identical fetch_eavi on the returned cursor therefore finds an empty
staging EAV result again and is answered from the primary, not from
staging. -/
theorem fetch_eavi_cache_goes_to_staging_cas :
    (fetchCur.fetch_eavi eaviCacheToC qAllNat).1 = [eavPrimRec] ∧
    (fetchCur.fetch_eavi eaviCacheToC qAllNat).2.staging_eav_db.records = [] ∧
    (fetchCur.fetch_eavi eaviCacheToC qAllNat).2.staging_cas_db.store =
      [([3, 4], "eavi-json")] ∧
    (((fetchCur.fetch_eavi eaviCacheToC qAllNat).2.staging_eav_db.fetch_eavi
        qAllNat).isEmpty = true) ∧
    ((fetchCur.fetch_eavi eaviCacheToC qAllNat).2.fetch_eavi eaviCacheToC
        qAllNat).1 =
      (fetchCur.fetch_eavi eaviCacheToC qAllNat).2.eav_db.fetch_eavi qAllNat := by
  refine ⟨by decide, by decide, by decide, by decide, by decide⟩

/-- C4: Cursor::add and Cursor::add_eavi write only to the staging stores:
the primary CAS handle, primary EAV handle and primary map size are
untouched, primary lookups and primary query evaluations are unchanged,
and a cursor re-reading the shared primary environment after the writes
observes exactly what it observed before. -/
theorem cursor_writes_only_staging {A : Type} [DecidableEq A]
    (cur : EnvCursor A) (c : AddressableContent)
    (r : EntityAttributeValueIndex A) (a : Address) (q : EaviQuery A) :
    (cur.add c).cas_db = cur.cas_db ∧
    (cur.add c).eav_db = cur.eav_db ∧
    (cur.add c).mapSize = cur.mapSize ∧
    ((cur.add_eavi r).2.cas_db = cur.cas_db ∧
      (cur.add_eavi r).2.eav_db = cur.eav_db ∧
      (cur.add_eavi r).2.mapSize = cur.mapSize) ∧
    casGet (cur.add c).cas_db.store a = casGet cur.cas_db.store a ∧
    fetchEaviRecords (cur.add_eavi r).2.eav_db.records q =
      fetchEaviRecords cur.eav_db.records q ∧
    (∀ other : EnvCursor A,
      ({ other with cas_db := (cur.add c).cas_db,
                    eav_db := (cur.add_eavi r).2.eav_db } : EnvCursor A).fetch a =
      ({ other with cas_db := cur.cas_db,
                    eav_db := cur.eav_db } : EnvCursor A).fetch a) :=
  ⟨rfl, rfl, rfl, ⟨rfl, rfl, rfl⟩, rfl, rfl, fun _ => rfl⟩

theorem casGet_casPut (a : Address) (c : Content)
    (m : List (Address × Content)) : casGet (casPut a c m) a = some c := by
  simp [casGet, casPut]

/-- C5: the fetch cascade.  A staging hit is returned with staging
untouched; on a staging miss, a primary hit is returned and the content is
written into the staging CAS under the queried address; when both stores
miss, None is returned and the cursor, staging included, is unchanged. -/
theorem cursor_fetch_cascade {A : Type} (cur : EnvCursor A) (a : Address) :
    (∀ c, casGet cur.staging_cas_db.store a = some c →
      cur.fetch a = (some c, cur)) ∧
    (casGet cur.staging_cas_db.store a = Option.none →
      (∀ c, casGet cur.cas_db.store a = some c →
        cur.fetch a =
          (some c,
           { cur with staging_cas_db :=
              { cur.staging_cas_db with
                store := casPut a c cur.staging_cas_db.store } }) ∧
        casGet (cur.fetch a).2.staging_cas_db.store a = some c) ∧
      (casGet cur.cas_db.store a = Option.none →
        cur.fetch a = (Option.none, cur))) := by
  refine ⟨?_, ?_⟩
  · intro c hc
    simp [EnvCursor.fetch, hc]
  · intro hs
    refine ⟨?_, ?_⟩
    · intro c hc
      refine ⟨by simp [EnvCursor.fetch, hs, hc], ?_⟩
      simp [EnvCursor.fetch, hs, hc, casGet_casPut]
    · intro hc
      simp [EnvCursor.fetch, hs, hc]

/-- Cursor with a staging hit for the cascade instance. -/
def cascCurS : EnvCursor Nat :=
  { mapSize := 8,
    cas_db := { id := 1, store := [([1], "p")] },
    eav_db := { id := 1, records := [] },
    staging_cas_db := { id := 2, store := [([1], "s")] },
    staging_eav_db := { id := 2, records := [] } }

/-- Cursor with a staging miss and a primary hit for the cascade instance. -/
def cascCurP : EnvCursor Nat :=
  { mapSize := 8,
    cas_db := { id := 1, store := [([1], "p")] },
    eav_db := { id := 1, records := [] },
    staging_cas_db := { id := 2, store := [] },
    staging_eav_db := { id := 2, records := [] } }

/-- Cursor missing everywhere for the cascade instance. -/
def cascCurN : EnvCursor Nat :=
  { mapSize := 8,
    cas_db := { id := 1, store := [] },
    eav_db := { id := 1, records := [] },
    staging_cas_db := { id := 2, store := [] },
    staging_eav_db := { id := 2, records := [] } }

/-- Instance of the fetch cascade at the three concrete cursors. -/
theorem cursor_fetch_cascade_inst :
    cascCurS.fetch [1] = (some "s", cascCurS) ∧
    (cascCurP.fetch [1]).1 = some "p" ∧
    casGet (cascCurP.fetch [1]).2.staging_cas_db.store [1] = some "p" ∧
    cascCurN.fetch [1] = (Option.none, cascCurN) :=
  ⟨(cursor_fetch_cascade cascCurS [1]).1 "s" (by decide),
   by
     rw [(((cursor_fetch_cascade cascCurP [1]).2 (by decide)).1 "p"
        (by decide)).1],
   (((cursor_fetch_cascade cascCurP [1]).2 (by decide)).1 "p" (by decide)).2,
   ((cursor_fetch_cascade cascCurN [1]).2 (by decide)).2 (by decide)⟩

/-- C8: contains delegates to fetch, so it reports true exactly when fetch
returns content; and after add of some content on the same open cursor,
contains at that content's address is true before any commit. -/
theorem contains_iff_fetch_some {A : Type} (cur : EnvCursor A) (a : Address)
    (c : AddressableContent) :
    (cur.contains a).1 = ((cur.fetch a).1).isSome ∧
    ((cur.add c).contains c.address).1 = true := by
  refine ⟨rfl, ?_⟩
  simp [EnvCursor.contains, EnvCursor.fetch, EnvCursor.add, LmdbStorage.add,
    casPut, casGet]

/-- C9: the NonTransactionalCursor delegates add, fetch, add_eavi and
fetch_eavi directly to the underlying primary stores with no staging,
commit returns Ok(()) doing no work, create_cursor returns a clone sharing
the same stores, and a write through such a cursor is immediately visible
through any cursor created from it, before any commit. -/
theorem nontransactional_cursor_delegates {A : Type} [DecidableEq A]
    (nt : NonTransactionalCursor A) (c : AddressableContent) (a : Address)
    (r : EntityAttributeValueIndex A) (q : EaviQuery A) :
    (nt.add c).cas = casPut c.address c.content nt.cas ∧
    nt.fetch a = casGet nt.cas a ∧
    (nt.add_eavi r).2.eav = nt.eav ++ [r] ∧
    nt.fetch_eavi q = fetchEaviRecords nt.eav q ∧
    nt.commit = (Except.ok (), nt) ∧
    nt.create_cursor = nt ∧
    ((nt.add c).create_cursor).fetch c.address = some c.content :=
  ⟨rfl, rfl, rfl, rfl, rfl, rfl, casGet_casPut c.address c.content nt.cas⟩

/-- C10: get_id of a cursor returns the UUID of the primary CAS handle, so
every cursor minted by one manager reports the id of the manager's cas()
handle, two cursors with distinct staging UUIDs report equal ids, and the
reported id is not the cursor's private staging id whenever the staging
UUID differs from the primary one. -/
theorem get_id_is_primary_cas_id {A : Type} (cas_db : LmdbStorage)
    (eav_db : EavLmdbStorage A) (mapSize sid1 sid2 : Nat) :
    ((new_manager cas_db eav_db mapSize).cursor_provider.create_cursor
        sid1).get_id =
      (new_manager cas_db eav_db mapSize).cas.get_id ∧
    ((new_manager cas_db eav_db mapSize).cursor_provider.create_cursor
        sid1).get_id =
      ((new_manager cas_db eav_db mapSize).cursor_provider.create_cursor
        sid2).get_id ∧
    ((new_manager cas_db eav_db mapSize).cursor_provider.create_cursor
        sid1).staging_cas_db.get_id = sid1 ∧
    (sid1 ≠ cas_db.get_id →
      ((new_manager cas_db eav_db mapSize).cursor_provider.create_cursor
          sid1).get_id ≠ sid1) :=
  ⟨rfl, rfl, rfl, fun h hh => h hh.symm⟩

/-- Instance of the get_id theorem at a concrete manager with primary id 1
and staging ids 2 and 3. -/
theorem get_id_is_primary_cas_id_inst :
    ((new_manager (A := Nat) { id := 1, store := [] } { id := 1, records := [] }
        8).cursor_provider.create_cursor 2).get_id = 1 ∧
    ((new_manager (A := Nat) { id := 1, store := [] } { id := 1, records := [] }
        8).cursor_provider.create_cursor 2).get_id ≠ 2 :=
  ⟨rfl,
   (get_id_is_primary_cas_id { id := 1, store := [] } { id := 1, records := [] }
      8 2 3).2.2.2 (by decide)⟩

/-- Total bytes of the staged working set a commit must fit into the
primary mapped region. -/
def stagedSize {A : Type} (cur : EnvCursor A) : Nat :=
  (cur.staging_cas_db.store.map (fun p => casEntrySize p.1 p.2)).sum +
    (cur.staging_eav_db.records.map eaviSize).sum

/-- Bytes the primary mapped region must hold for a commit attempt to get
through all three capacity checks: the committed data, the staged working
set, and the final transaction-commit overhead. -/
def requiredSize {A : Type} (cur : EnvCursor A) : Nat :=
  usedSize cur + stagedSize cur + txnCommitOverhead

theorem writePhase_ok (M : Nat) :
    ∀ (l : List Nat) (used : Nat), used + l.sum ≤ M →
      writePhase M used l = Except.ok (used + l.sum)
  | [], used, _ => by simp [writePhase]
  | sz :: rest, used, h => by
    have h1 : used + sz ≤ M := by
      have := List.sum_cons (a := sz) (l := rest)
      omega
    have h2 : used + sz + rest.sum ≤ M := by
      have := List.sum_cons (a := sz) (l := rest)
      omega
    have hrec := writePhase_ok M rest (used + sz) h2
    simp [writePhase, lmdb_write_size, h1, hrec]
    have := List.sum_cons (a := sz) (l := rest)
    omega

theorem writePhase_error_full (M : Nat) :
    ∀ (l : List Nat) (used : Nat) (e : StoreError),
      writePhase M used l = Except.error e → e = StoreError.mapFull
  | [], used, e, h => by simp [writePhase] at h
  | sz :: rest, used, e, h => by
    by_cases hfit : used + sz ≤ M
    · simp [writePhase, lmdb_write_size, hfit] at h
      exact writePhase_error_full M rest (used + sz) e h
    · simp [writePhase, lmdb_write_size, hfit] at h
      exact h.symm

theorem writer_commit_error_full (M used : Nat) (e : StoreError)
    (h : writer_commit M used = Except.error e) : e = StoreError.mapFull := by
  unfold writer_commit at h
  split at h
  · cases h
  · cases h
    rfl

theorem commit_internal_cases {A : Type} (cur : EnvCursor A) :
    commit_internal cur = Except.ok (false, cur.grow) ∨
    commit_internal cur = Except.ok (true, applyCommitData cur) := by
  unfold commit_internal
  cases h1 : writePhase cur.mapSize (usedSize cur)
      (cur.staging_cas_db.store.map (fun p => casEntrySize p.1 p.2)) with
  | error e =>
    have he := writePhase_error_full _ _ _ _ h1
    subst he
    left
    rfl
  | ok used1 =>
    cases h2 : writePhase cur.mapSize used1
        (cur.staging_eav_db.records.map eaviSize) with
    | error e =>
      have he := writePhase_error_full _ _ _ _ h2
      subst he
      left
      simp [h2]
    | ok used2 =>
      cases h3 : writer_commit cur.mapSize used2 with
      | error e =>
        have he := writer_commit_error_full _ _ _ h3
        subst he
        left
        simp [h2, h3]
      | ok u =>
        right
        simp [h2, h3]

theorem commit_internal_of_fits {A : Type} (cur : EnvCursor A)
    (h : requiredSize cur ≤ cur.mapSize) :
    commit_internal cur = Except.ok (true, applyCommitData cur) := by
  unfold requiredSize stagedSize usedSize txnCommitOverhead at h
  have h1 : usedSize cur +
      (cur.staging_cas_db.store.map (fun p => casEntrySize p.1 p.2)).sum ≤
      cur.mapSize := by
    unfold usedSize
    omega
  have hw1 := writePhase_ok cur.mapSize
    (cur.staging_cas_db.store.map (fun p => casEntrySize p.1 p.2))
    (usedSize cur) h1
  have h2 : usedSize cur +
      (cur.staging_cas_db.store.map (fun p => casEntrySize p.1 p.2)).sum +
      (cur.staging_eav_db.records.map eaviSize).sum ≤ cur.mapSize := by
    unfold usedSize
    omega
  have hw2 := writePhase_ok cur.mapSize
    (cur.staging_eav_db.records.map eaviSize)
    (usedSize cur +
      (cur.staging_cas_db.store.map (fun p => casEntrySize p.1 p.2)).sum) h2
  have hfit : usedSize cur +
      (cur.staging_cas_db.store.map (fun p => casEntrySize p.1 p.2)).sum +
      (cur.staging_eav_db.records.map eaviSize).sum + txnCommitOverhead ≤
      cur.mapSize := by
    unfold usedSize txnCommitOverhead
    omega
  have hw3 : writer_commit cur.mapSize
      (usedSize cur +
        (cur.staging_cas_db.store.map (fun p => casEntrySize p.1 p.2)).sum +
        (cur.staging_eav_db.records.map eaviSize).sum) = Except.ok () := by
    unfold writer_commit
    rw [if_pos hfit]
  unfold commit_internal
  rw [hw1]
  simp [hw2, hw3]

theorem commit_result_ok {A : Type} :
    ∀ (fuel : Nat) (cur : EnvCursor A)
      (r : Except PersistenceError (EnvCursor A)),
      EnvCursor.commit fuel cur = some r → ∃ cur', r = Except.ok cur'
  | 0, _, _, h => by simp [EnvCursor.commit] at h
  | fuel + 1, cur, r, h => by
    rcases commit_internal_cases cur with hci | hci
    · simp [EnvCursor.commit, hci] at h
      exact commit_result_ok fuel cur.grow r h
    · simp [EnvCursor.commit, hci] at h
      exact ⟨applyCommitData cur, h.symm⟩

/-- C1: commit never surfaces CapacityExhausted.  A single attempt never
returns the capacity error; whenever it signals that the mapped region was
full, the primary map size has been multiplied by the configured growth
factor and the loop retries; and every result the commit loop produces is a
success, never the capacity error. -/
theorem commit_never_capacity_exhausted {A : Type} (cur : EnvCursor A) :
    commit_internal cur ≠ Except.error PersistenceError.capacityExhausted ∧
    (∀ cur', commit_internal cur = Except.ok (false, cur') →
      cur' = cur.grow ∧ cur'.mapSize = cur.mapSize * map_growth_factor) ∧
    (∀ fuel r, EnvCursor.commit fuel cur = some r →
      r ≠ Except.error PersistenceError.capacityExhausted) := by
  refine ⟨?_, ?_, ?_⟩
  · rcases commit_internal_cases cur with hci | hci <;> simp [hci]
  · intro cur' h
    rcases commit_internal_cases cur with hci | hci
    · rw [hci] at h
      cases h
      exact ⟨rfl, rfl⟩
    · rw [hci] at h
      cases h
  · intro fuel r h
    obtain ⟨cur', hr⟩ := commit_result_ok fuel cur r h
    subst hr
    intro hh
    cases hh

/-- A cursor whose single staged CAS entry is far larger than the initial
1-byte mapped region: the first three attempts signal full and grow the
map, the fourth succeeds. -/
def commitCur : EnvCursor Nat :=
  { mapSize := 1,
    cas_db := { id := 1, store := [] },
    eav_db := { id := 1, records := [] },
    staging_cas_db := { id := 2, store := [([0, 0, 0], "x")] },
    staging_eav_db := { id := 2, records := [] } }

/-- A cursor whose single staged CAS entry of 5 bytes fits the 5-byte
mapped region write by write, but whose final writer commit exceeds it by
the transaction overhead: the MapFull signal comes from the final
writer.commit() site, the map grows, and the second attempt succeeds. -/
def commitCurW : EnvCursor Nat :=
  { mapSize := 5,
    cas_db := { id := 1, store := [] },
    eav_db := { id := 1, records := [] },
    staging_cas_db := { id := 2, store := [([0, 0, 0], "x")] },
    staging_eav_db := { id := 2, records := [] } }

/-- Instance of the capacity-absorption theorem at commitCur, whose first
attempt signals full while writing staged CAS entries, and at commitCurW,
whose first attempt signals full at the final writer commit; both grow the
map by the growth factor and both loop results are successes. -/
theorem commit_never_capacity_exhausted_inst :
    commitCur.grow.mapSize = commitCur.mapSize * map_growth_factor ∧
    commitCurW.grow.mapSize = commitCurW.mapSize * map_growth_factor ∧
    (Except.ok (applyCommitData commitCur.grow.grow.grow) :
        Except PersistenceError (EnvCursor Nat)) ≠
      Except.error PersistenceError.capacityExhausted ∧
    (Except.ok (applyCommitData commitCurW.grow) :
        Except PersistenceError (EnvCursor Nat)) ≠
      Except.error PersistenceError.capacityExhausted :=
  ⟨((commit_never_capacity_exhausted commitCur).2.1 commitCur.grow
      (by decide)).2,
   ((commit_never_capacity_exhausted commitCurW).2.1 commitCurW.grow
      (by decide)).2,
   (commit_never_capacity_exhausted commitCur).2.2 4
      (Except.ok (applyCommitData commitCur.grow.grow.grow)) (by decide),
   (commit_never_capacity_exhausted commitCurW).2.2 2
      (Except.ok (applyCommitData commitCurW.grow)) (by decide)⟩

theorem usedSize_grow {A : Type} (cur : EnvCursor A) :
    usedSize cur.grow = usedSize cur := rfl

theorem requiredSize_grow {A : Type} (cur : EnvCursor A) :
    requiredSize cur.grow = requiredSize cur := rfl

theorem grow_mapSize {A : Type} (cur : EnvCursor A) :
    cur.grow.mapSize = cur.mapSize * 2 := rfl

theorem commit_succ {A : Type} (fuel : Nat) (cur : EnvCursor A) :
    EnvCursor.commit (fuel + 1) cur =
      match commit_internal cur with
      | Except.error e => some (Except.error e)
      | Except.ok (true, cur') => some (Except.ok cur')
      | Except.ok (false, cur') => EnvCursor.commit fuel cur' := rfl

theorem commit_terminates_aux {A : Type} :
    ∀ (k : Nat) (cur : EnvCursor A), 0 < cur.mapSize →
      requiredSize cur ≤ cur.mapSize * 2 ^ k →
      ∃ r, EnvCursor.commit (k + 1) cur = some r
  | 0, cur, _, hreq => by
    rw [pow_zero, Nat.mul_one] at hreq
    exact ⟨Except.ok (applyCommitData cur),
      by rw [commit_succ, commit_internal_of_fits cur hreq]⟩
  | k + 1, cur, hpos, hreq => by
    rcases commit_internal_cases cur with hci | hci
    · have hpos' : 0 < cur.grow.mapSize := by
        rw [grow_mapSize]
        omega
      have hreq' : requiredSize cur.grow ≤ cur.grow.mapSize * 2 ^ k := by
        rw [requiredSize_grow, grow_mapSize]
        calc requiredSize cur ≤ cur.mapSize * 2 ^ (k + 1) := hreq
          _ = cur.mapSize * 2 * 2 ^ k := by ring
      obtain ⟨r, hr⟩ := commit_terminates_aux k cur.grow hpos' hreq'
      refine ⟨r, ?_⟩
      rw [commit_succ, hci]
      exact hr
    · exact ⟨Except.ok (applyCommitData cur), by rw [commit_succ, hci]⟩

/-- C7: the commit retry loop terminates.  For every cursor over a primary
environment with a positive mapped size, the finite staged working set fits
after finitely many doublings, so some finite fuel makes the commit loop
return a result. -/
theorem commit_retry_terminates {A : Type} (cur : EnvCursor A)
    (hpos : 0 < cur.mapSize) :
    ∃ fuel r, EnvCursor.commit fuel cur = some r := by
  have hk : requiredSize cur ≤ cur.mapSize * 2 ^ requiredSize cur := by
    have h1 : requiredSize cur < 2 ^ requiredSize cur :=
      Nat.lt_two_pow (requiredSize cur)
    have h2 : 1 * 2 ^ requiredSize cur ≤ cur.mapSize * 2 ^ requiredSize cur :=
      Nat.mul_le_mul_right (2 ^ requiredSize cur) hpos
    omega
  obtain ⟨r, hr⟩ := commit_terminates_aux (requiredSize cur) cur hpos hk
  exact ⟨requiredSize cur + 1, r, hr⟩

/-- Instance of the termination theorem at commitCur. -/
theorem commit_retry_terminates_inst :
    0 < commitCur.mapSize ∧ ∃ fuel r, EnvCursor.commit fuel commitCur = some r :=
  ⟨by decide, commit_retry_terminates commitCur (by decide)⟩
